import Mathlib

/-!
Shallow embedding of the Stockfish socket-analysis service:
  * `src/stockfish/parseUci.js`   — UCI "info" line parser
  * `src/stockfish/utils.js`      — FEN side-to-move and eval normalization
  * `src/stockfish/stockfishEngine.js` — engine process controller (state part)
  * `src/server.js`               — session controller, update throttler,
                                    grouped aggregator, concurrency counters
JS strings are Lean `String`s, JS numbers that hold parsed integers are
`Option Int` (null = none), and JS fractional config values and timestamps
are `ℚ`.  Mutable per-session and process-wide state is passed explicitly.
-/

/-! ## JavaScript string primitives used by the sources -/

/-- ASCII whitespace recognised by the `\s`-based splitting and trimming
used in the sources (space, tab, LF, CR, VT, FF). -/
def isJsSpace (c : Char) : Bool :=
  c = ' ' || c = '\t' || c = '\n' || c = '\r' || c.toNat = 11 || c.toNat = 12

/-- `String.prototype.trim`. -/
def jsTrim (s : String) : String :=
  String.mk (((s.data.dropWhile isJsSpace).reverse.dropWhile isJsSpace).reverse)

/-- Character-list prefix test. -/
def beginsWith : List Char → List Char → Bool
  | [], _ => true
  | _ :: _, [] => false
  | a :: as, b :: bs => a = b && beginsWith as bs

/-- `String.prototype.startsWith`. -/
def jsStartsWith (s pre : String) : Bool :=
  beginsWith pre.data s.data

/-- Splitting on runs of whitespace; on trimmed input this is
`s.split(/\s+/)`. -/
def splitWsChars : List Char → List Char → List (List Char)
  | [], acc => if acc = [] then [] else [acc.reverse]
  | c :: cs, acc =>
    if isJsSpace c then
      if acc = [] then splitWsChars cs [] else acc.reverse :: splitWsChars cs []
    else splitWsChars cs (c :: acc)

/-- `s.split(/\s+/)` on trimmed input. -/
def jsSplitWs (s : String) : List String :=
  (splitWsChars s.data []).map String.mk

/-- Decimal value of a digit string. -/
def digitsVal (ds : List Char) : Nat :=
  ds.foldl (fun a c => a * 10 + (c.toNat - 48)) 0

/-- `Number.parseInt(s, 10)` followed by the `Number.isFinite` filter:
optional sign, then the longest leading digit run; `none` when there is
no leading digit (NaN). -/
def jsParseInt10 (s : String) : Option Int :=
  match s.data with
  | '-' :: rest =>
    let ds := rest.takeWhile Char.isDigit
    if ds = [] then none else some (-(digitsVal ds : Int))
  | '+' :: rest =>
    let ds := rest.takeWhile Char.isDigit
    if ds = [] then none else some ((digitsVal ds : Int))
  | cs =>
    let ds := cs.takeWhile Char.isDigit
    if ds = [] then none else some ((digitsVal ds : Int))

/-! ## parseUci.js -/

/-- The structured record built by `parseUciInfoLine` (base result object,
`parseUci.js` lines 17–31). -/
structure InfoRecord where
  depth : Option Int
  selDepth : Option Int
  multiPv : Int
  evalType : Option String
  eval : Option Int
  pv : List String
  timeMs : Option Int
  nodes : Option Int
  nps : Option Int
  hashFull : Option Int
deriving DecidableEq

/-- The base result object: everything null/empty, `multiPv` defaulted to 1. -/
def initInfo : InfoRecord :=
  { depth := none, selDepth := none, multiPv := 1, evalType := none,
    eval := none, pv := [], timeMs := none, nodes := none, nps := none,
    hashFull := none }

/-- `toInt` applied to `tokens[i+1]`, which may be absent (undefined). -/
def toInt : Option String → Option Int
  | none => none
  | some s => jsParseInt10 s

/-- `toInt(tokens[i+1]) || 1` — the JS `||` falls through to 1 exactly on
the falsy values `null` and `0`. -/
def jsOr1 : Option Int → Int
  | none => 1
  | some n => if n = 0 then 1 else n

/-- The update a recognised keyword performs when it is the final token of
the line: its value token is absent (undefined), so numeric fields become
null, `multiPv` becomes `null || 1 = 1`, a trailing `score` sets nothing,
and a trailing `pv` sets the empty tail; then the loop ends. -/
def applyLastKey (t : String) (r : InfoRecord) : InfoRecord :=
  if t = "depth" then { r with depth := none }
  else if t = "seldepth" then { r with selDepth := none }
  else if t = "multipv" then { r with multiPv := 1 }
  else if t = "time" then { r with timeMs := none }
  else if t = "nodes" then { r with nodes := none }
  else if t = "nps" then { r with nps := none }
  else if t = "hashfull" then { r with hashFull := none }
  else if t = "score" then r
  else if t = "pv" then { r with pv := [] }
  else r

/-- The `score` branch (`parseUci.js` lines 111–126): type token `ty`,
optional value token `w`; unrecognised types set nothing. -/
def scoreUpd (ty : String) (w : Option String) (r : InfoRecord) : InfoRecord :=
  if ty = "cp" then { r with evalType := some "cp", eval := toInt w }
  else if ty = "mate" then { r with evalType := some "mate", eval := toInt w }
  else r

/-- The token walk of `parseUciInfoLine` (`parseUci.js` lines 53–135):
each recognised keyword consumes itself plus one value token (two for
`score`), `pv` swallows the rest of the line, unknown tokens are skipped. -/
def parseTokens : List String → InfoRecord → InfoRecord
  | [], r => r
  | [t], r => applyLastKey t r
  | t :: v :: rest2, r =>
    if t = "depth" then parseTokens rest2 { r with depth := jsParseInt10 v }
    else if t = "seldepth" then parseTokens rest2 { r with selDepth := jsParseInt10 v }
    else if t = "multipv" then parseTokens rest2 { r with multiPv := jsOr1 (jsParseInt10 v) }
    else if t = "time" then parseTokens rest2 { r with timeMs := jsParseInt10 v }
    else if t = "nodes" then parseTokens rest2 { r with nodes := jsParseInt10 v }
    else if t = "nps" then parseTokens rest2 { r with nps := jsParseInt10 v }
    else if t = "hashfull" then parseTokens rest2 { r with hashFull := jsParseInt10 v }
    else if t = "score" then
      match rest2 with
      | [] => scoreUpd v none r
      | w :: rest3 => parseTokens rest3 (scoreUpd v (some w) r)
    else if t = "pv" then { r with pv := v :: rest2 }
    else parseTokens (v :: rest2) r

/-- `parseUciInfoLine` (`parseUci.js` lines 8–146): trim, require the
`"info "` head, walk the tokens from index 1, and discard records that
carry no depth, no eval and an empty pv. -/
def parseUciInfoLine (line : String) : Option InfoRecord :=
  let trimmed := jsTrim line
  if jsStartsWith trimmed "info " = false then none
  else
    let tokens := jsSplitWs trimmed
    let r := parseTokens tokens.tail initInfo
    if r.depth ≠ none ∨ r.eval ≠ none ∨ r.pv ≠ [] then some r else none

/-! ## utils.js -/

/-- `getTurnFromFen` (`utils.js` lines 5–8): the second whitespace field
of the FEN, defaulting to `"w"` unless it is exactly `"b"`. -/
def getTurnFromFen (fen : String) : String :=
  if (jsSplitWs (jsTrim fen))[1]? = some "b" then "b" else "w"

/-- `normalizeEvalToWhitePerspective` (`utils.js` lines 19–30): a null
value passes through; otherwise black-to-move negates the value. -/
def normalizeEvalToWhitePerspective (evalType : Option String)
    (evalValue : Option Int) (turn : String) : Option Int :=
  match evalValue with
  | none => none
  | some v => if turn = "b" then some (-v) else some v

/-! ## stockfishEngine.js (state-transition part) -/

/-- The mutable fields of `StockfishEngine` that the lifecycle operations
read and write. -/
structure EngineState where
  procAlive : Bool
  isReady : Bool
  isAnalyzing : Bool
  currentFen : Option String
  evalView : String
  lastMode : String
deriving DecidableEq

/-- Events the engine surfaces through its callback slots. -/
inductive EngineOut where
  | infoEv (i : InfoRecord) (evalView turn : String)
  | bestMoveEv (best : Option String)
deriving DecidableEq

/-- `StockfishEngine.stop` (lines 149–155): early-outs when there is no
process or no search, otherwise sends `"stop"` and sleeps; it writes no
state field. -/
def engineStop (s : EngineState) : EngineState × List String :=
  if s.procAlive = false then (s, [])
  else if s.isAnalyzing = false then (s, [])
  else (s, ["stop"])

/-- `StockfishEngine.#handleLine` (lines 182–228). -/
def engineHandleLine (s : EngineState) (line : String) :
    EngineState × Option EngineOut :=
  let trimmed := jsTrim line
  if trimmed = "" then (s, none)
  else if trimmed = "readyok" then ({ s with isReady := true }, none)
  else
    match parseUciInfoLine trimmed with
    | some info =>
      let turn := match s.currentFen with
        | some f => getTurnFromFen f
        | none => "w"
      let normalized :=
        if s.evalView = "white" then
          normalizeEvalToWhitePerspective info.evalType info.eval turn
        else info.eval
      (s, some (EngineOut.infoEv { info with eval := normalized } s.evalView turn))
    | none =>
      if jsStartsWith trimmed "bestmove" then
        ({ s with isAnalyzing := false },
         some (EngineOut.bestMoveEv (jsSplitWs trimmed)[1]?))
      else (s, none)

/-- The `process.on("exit")` handler (lines 44–48). -/
def engineOnExit (s : EngineState) : EngineState :=
  { s with isReady := false, isAnalyzing := false }

/-- `StockfishEngine.quit` (lines 157–175): kills the process and clears
the flags. -/
def engineQuit (s : EngineState) : EngineState :=
  if s.procAlive = false then s
  else { s with procAlive := false, isReady := false, isAnalyzing := false }

/-! ## server.js — session state, throttler, aggregator -/

/-- Per-session analysis preferences (`server.js` lines 148–159). -/
structure SessionConfig where
  fen : Option String
  groupPv : Bool
  smartUpdates : Bool
  minIntervalMs : ℚ
  evalDelta : ℚ
  depthStep : ℚ

/-- The per-connection mutable state read by `engine.onInfo`: the session
config, the grouped-PV aggregator (`groupedPvState`), the smart-update
state (`lastEmitAt`, `lastSentByPv`) and the engine's `lastMode`. -/
structure SessionState where
  config : SessionConfig
  groupedFen : Option String
  groupedLines : Int → Option InfoRecord
  lastEmitAt : ℚ
  lastSentByPv : Int → Option InfoRecord
  lastMode : String

/-- Outbound socket events emitted by `engine.onInfo`. -/
inductive Emission where
  | update (info : InfoRecord)
  | updateGrouped (fen : Option String) (lines : Int → Option InfoRecord)

/-- JS object/`Map` store keyed by the multiPv index. -/
def objSet (f : Int → Option InfoRecord) (k : Int) (v : InfoRecord) :
    Int → Option InfoRecord :=
  fun x => if x = k then some v else f x

/-- `info.multiPv || 1` (`server.js` lines 199 and 213). -/
def jsMpv (i : InfoRecord) : Int :=
  if i.multiPv = 0 then 1 else i.multiPv

/-- `isPvChanged` (`server.js` lines 66–74): true when the lengths differ
or some aligned pair of moves differs. -/
def isPvChanged (a b : List String) : Bool :=
  a.length != b.length || (a.zip b).any fun p => p.1 != p.2

/-- `getDynamicIntervalMs` (`server.js` lines 80–90). -/
def getDynamicIntervalMs (mode : String) (depth : Int) : ℚ :=
  if mode = "depth" then
    if depth ≤ 6 then 80
    else if depth ≤ 12 then 140
    else if depth ≤ 18 then 220
    else 350
  else 180

/-- `resetGroupedPv` (`server.js` lines 169–174). -/
def resetGroupedPv (st : SessionState) (fen : Option String) : SessionState :=
  { st with groupedFen := fen, groupedLines := fun _ => none }

/-- `Math.max(sessionConfig.minIntervalMs, dynamicInterval)` with
`engine.lastMode || "depth"` and the depth defaulted to 0
(`server.js` lines 216–224). -/
def smartInterval (st : SessionState) (info : InfoRecord) : ℚ :=
  max st.config.minIntervalMs
    (getDynamicIntervalMs (if st.lastMode = "" then "depth" else st.lastMode)
      (info.depth.getD 0))

/-- `timeOk` (`server.js` line 227). -/
def smartTimeOk (st : SessionState) (info : InfoRecord) (t : ℚ) : Bool :=
  decide (t - st.lastEmitAt ≥ smartInterval st info)

/-- `depthOk` (`server.js` lines 229–233). -/
def smartDepthOk (st : SessionState) (info : InfoRecord) : Bool :=
  match st.lastSentByPv (jsMpv info) with
  | none => true
  | some p =>
    match p.depth, info.depth with
    | some pd, some d => decide ((d : ℚ) ≥ (pd : ℚ) + st.config.depthStep)
    | _, _ => false

/-- `evalOk` (`server.js` lines 235–239). -/
def smartEvalOk (st : SessionState) (info : InfoRecord) : Bool :=
  match st.lastSentByPv (jsMpv info) with
  | none => true
  | some p =>
    match info.eval, p.eval with
    | some e, some pe => decide (|(e : ℚ) - (pe : ℚ)| ≥ st.config.evalDelta)
    | _, _ => false

/-- `pvOk` (`server.js` line 241). -/
def smartPvOk (st : SessionState) (info : InfoRecord) : Bool :=
  match st.lastSentByPv (jsMpv info) with
  | none => true
  | some p => isPvChanged p.pv info.pv

/-- `shouldEmit = timeOk && (depthOk || evalOk || pvOk)` (line 244). -/
def smartShouldEmit (st : SessionState) (info : InfoRecord) (t : ℚ) : Bool :=
  smartTimeOk st info t && (smartDepthOk st info || smartEvalOk st info || smartPvOk st info)

/-- The smart-updates branch of `engine.onInfo` (`server.js` lines
209–259): on emit, update `lastEmitAt` and the line's last-sent cache,
then send the plain or grouped event; otherwise leave the state alone. -/
def smartStep (st : SessionState) (info : InfoRecord) (t : ℚ) :
    SessionState × Option Emission :=
  if smartShouldEmit st info t then
    let st1 := { st with lastEmitAt := t,
                         lastSentByPv := objSet st.lastSentByPv (jsMpv info) info }
    if st.config.groupPv = false then (st1, some (Emission.update info))
    else
      let lines := objSet st.groupedLines (jsMpv info) info
      ({ st1 with groupedLines := lines },
       some (Emission.updateGrouped st.groupedFen lines))
  else (st, none)

/-- `engine.onInfo` (`server.js` lines 185–260): drop records with an
empty pv and a null eval; without smart updates forward (plain or
grouped) unconditionally; otherwise run the smart-updates branch. -/
def onInfo (st : SessionState) (info : InfoRecord) (t : ℚ) :
    SessionState × Option Emission :=
  if info.pv = [] ∧ info.eval = none then (st, none)
  else if st.config.smartUpdates = false then
    if st.config.groupPv = false then (st, some (Emission.update info))
    else
      let lines := objSet st.groupedLines (jsMpv info) info
      ({ st with groupedLines := lines },
       some (Emission.updateGrouped st.groupedFen lines))
  else smartStep st info t

/-- Feed a sequence of (record, arrival-time) pairs through `onInfo`,
collecting the emissions. -/
def runInfos : SessionState → List (InfoRecord × ℚ) → SessionState × List Emission
  | st, [] => (st, [])
  | st, (i, t) :: rest =>
    let step := onInfo st i t
    let next := runInfos step.1 rest
    (next.1, step.2.toList ++ next.2)

/-- The records of a sequence that `onInfo` accepted (emitted). -/
def acceptedOf : SessionState → List (InfoRecord × ℚ) → List InfoRecord
  | _, [] => []
  | st, (i, t) :: rest =>
    let step := onInfo st i t
    (if step.2.isSome then [i] else []) ++ acceptedOf step.1 rest

/-- The most recent record of the list whose multiPv key is `k`. -/
def lastWith (k : Int) : List InfoRecord → Option InfoRecord
  | [] => none
  | i :: rest => Option.or (lastWith k rest) (if jsMpv i = k then some i else none)

/-! ## server.js — process-wide concurrency counters -/

/-- The effect of one `analysis:start` invocation on `activeAnalysisCount`
(`server.js` lines 340–498): busy check, invalid-mode throw (caught by the
guarded release in the catch block), slot reservation, and the guarded
release when a later await rejects. -/
def startHandlerCount (maxA ac : Int) (mode : String) (downstreamOk : Bool) : Int :=
  if ac ≥ maxA then ac
  else if mode = "depth" ∨ mode = "time" then
    if downstreamOk then ac + 1
    else if ac + 1 > 0 then ac else ac + 1
  else if ac > 0 then ac - 1 else ac

/-- The process-wide counters, plus `live`: transport-level bookkeeping of
accepted sockets that have not yet disconnected (the transport fires
`disconnect` exactly once per accepted socket). -/
structure Gov where
  ce : Int
  ac : Int
  live : Int
deriving DecidableEq

/-- One atomic synchronous segment of a handler touching the counters. -/
inductive GovEvent where
  | connect
  | startReq (mode : String) (downstreamOk : Bool)
  | bestmove
  | engineError (analyzing : Bool)
  | stopReq
  | disconnect (analyzing : Bool)

/-- The counter effect of each handler segment (`server.js` lines
118–133, 262–281, 340–530); `disconnect` is only enabled while an
accepted socket is live. -/
def govStep (maxE maxA : Int) (g : Gov) : GovEvent → Option Gov
  | GovEvent.connect =>
    some (if g.ce ≥ maxE then g else { g with ce := g.ce + 1, live := g.live + 1 })
  | GovEvent.startReq mode ok =>
    some { g with ac := startHandlerCount maxA g.ac mode ok }
  | GovEvent.bestmove =>
    some { g with ac := if g.ac > 0 then g.ac - 1 else g.ac }
  | GovEvent.engineError b =>
    some { g with ac := if b ∧ g.ac > 0 then g.ac - 1 else g.ac }
  | GovEvent.stopReq =>
    some { g with ac := if g.ac > 0 then g.ac - 1 else g.ac }
  | GovEvent.disconnect b =>
    if g.live > 0 then
      some { g with ce := g.ce - 1, live := g.live - 1,
                    ac := if b ∧ g.ac > 0 then g.ac - 1 else g.ac }
    else none

/-- States reachable from server start (both counters zero) under an
arbitrary interleaving of handler segments. -/
inductive GovReach (maxE maxA : Int) : Gov → Prop
  | init : GovReach maxE maxA { ce := 0, ac := 0, live := 0 }
  | step {g g' : Gov} {e : GovEvent} :
      GovReach maxE maxA g → govStep maxE maxA g e = some g' →
      GovReach maxE maxA g'

/-! ## Concrete sample data used by witnesses and counterexamples -/

/-- The record parsed from `info depth 5`: depth only, no eval, empty pv. -/
def infoDepthOnly : InfoRecord :=
  { depth := some 5, selDepth := none, multiPv := 1, evalType := none,
    eval := none, pv := [], timeMs := none, nodes := none, nps := none,
    hashFull := none }

/-- A record with a pv and an eval, on result line 1. -/
def infoSample : InfoRecord :=
  { depth := some 20, selDepth := none, multiPv := 1, evalType := some "cp",
    eval := some 10, pv := ["e2e4"], timeMs := none, nodes := none,
    nps := none, hashFull := none }

/-- A record on result line 2. -/
def infoSample2 : InfoRecord :=
  { depth := some 20, selDepth := none, multiPv := 2, evalType := some "cp",
    eval := some (-4), pv := ["d2d4"], timeMs := none, nodes := none,
    nps := none, hashFull := none }

/-- A session with both optional features off (the defaults). -/
def stPlain : SessionState :=
  { config := { fen := none, groupPv := false, smartUpdates := false,
                minIntervalMs := 120, evalDelta := 1, depthStep := 1 },
    groupedFen := none, groupedLines := fun _ => none,
    lastEmitAt := 0, lastSentByPv := fun _ => none, lastMode := "depth" }

/-- A session with smart updates on. -/
def stSmart : SessionState :=
  { config := { fen := none, groupPv := false, smartUpdates := true,
                minIntervalMs := 120, evalDelta := 1, depthStep := 1 },
    groupedFen := none, groupedLines := fun _ => none,
    lastEmitAt := 0, lastSentByPv := fun _ => none, lastMode := "depth" }

/-- A session with grouping on (throttling off). -/
def stGrouped : SessionState :=
  { config := { fen := some "startpos", groupPv := true, smartUpdates := false,
                minIntervalMs := 120, evalDelta := 1, depthStep := 1 },
    groupedFen := some "startpos", groupedLines := fun _ => none,
    lastEmitAt := 0, lastSentByPv := fun _ => none, lastMode := "depth" }

/-- An engine that is mid-analysis. -/
def engAnalyzing : EngineState :=
  { procAlive := true, isReady := true, isAnalyzing := true,
    currentFen := some "rnbqkbnr/pppppppp/8/8/8/8/PPPPPPPP/RNBQKBNR w KQkq - 0 1",
    evalView := "white", lastMode := "depth" }

/-! ## Claim theorems -/

set_option maxHeartbeats 4000000 in
/-- C7: the line `info depth 20 multipv 2 score cp -15 nodes 12345 nps
99999 time 123 pv e2e4 e7e5` parses to depth 20, result line 2, a cp
eval of −15, the pv `[e2e4, e7e5]`, 12345 nodes, 99999 nps, 123 ms. -/
theorem parse_example_line :
    parseUciInfoLine
        "info depth 20 multipv 2 score cp -15 nodes 12345 nps 99999 time 123 pv e2e4 e7e5" =
      some { depth := some 20, selDepth := none, multiPv := 2,
             evalType := some "cp", eval := some (-15), pv := ["e2e4", "e7e5"],
             timeMs := some 123, nodes := some 12345, nps := some 99999,
             hashFull := none } := by
  rfl

/-- C1 (bug evidence): with one other search active
(`activeAnalysisCount = 1`, limit 2), a start request whose mode is
neither `depth` nor `time` drives the counter from 1 to 0 — the catch
block releases a slot the rejected request never reserved. -/
theorem start_invalid_mode_counter_drops :
    startHandlerCount 2 1 "turbo" true = 0 := by
  decide

/-- C2 (counterexample): the parser returns a non-null depth-only record
for `info depth 5`, yet with smart updates disabled `onInfo` drops it
(empty pv and null eval), so not every non-null record is forwarded. -/
theorem onInfo_drops_depth_only_record :
    parseUciInfoLine "info depth 5" = some infoDepthOnly ∧
    (onInfo stPlain infoDepthOnly 0).2 = none :=
  ⟨by decide, rfl⟩

/-- C3 (counterexample): on `info depth 1 multipv -3` the value token
parses to the negative integer −3 and is kept as-is (JS `|| 1` only
replaces the falsy values `null` and `0`), so `multiPv` is −3, not 1. -/
theorem parse_negative_multipv_kept :
    (parseUciInfoLine "info depth 1 multipv -3").map InfoRecord.multiPv = some (-3) ∧
    (parseUciInfoLine "info depth 1 multipv -3").map InfoRecord.multiPv ≠ some 1 := by
  decide

/-- C6: every record the parser returns satisfies the informativeness
invariant — a non-null depth, a non-null eval, or a non-empty pv. -/
theorem parse_informative (line : String) (r : InfoRecord)
    (h : parseUciInfoLine line = some r) :
    r.depth ≠ none ∨ r.eval ≠ none ∨ r.pv ≠ [] := by
  simp only [parseUciInfoLine] at h
  split at h
  · exact Option.noConfusion h
  · split at h
    · next hAny => injection h with h2; subst h2; exact hAny
    · exact Option.noConfusion h

/-- Witness for C6 at the concrete depth-only record. -/
theorem parse_informative_witness :
    infoDepthOnly.depth ≠ none ∨ infoDepthOnly.eval ≠ none ∨ infoDepthOnly.pv ≠ [] :=
  parse_informative "info depth 5" infoDepthOnly (by decide)

/-- C8: in absolute (white-perspective) mode a numeric eval is negated
exactly when the side to move derived from the position string is black,
passes through otherwise, and a null eval always passes through; the
derived side is always `b` or `w`.  In particular the example position
with eval −15 normalizes to +15. -/
theorem normalize_eval_perspective :
    (∀ (et : Option String) (v : Int) (fen : String),
      (getTurnFromFen fen = "b" →
        normalizeEvalToWhitePerspective et (some v) (getTurnFromFen fen) = some (-v)) ∧
      (getTurnFromFen fen = "w" →
        normalizeEvalToWhitePerspective et (some v) (getTurnFromFen fen) = some v) ∧
      normalizeEvalToWhitePerspective et none (getTurnFromFen fen) = none ∧
      (getTurnFromFen fen = "b" ∨ getTurnFromFen fen = "w")) ∧
    normalizeEvalToWhitePerspective (some "cp") (some (-15))
      (getTurnFromFen "rnbqkbnr/pppppppp/8/8/8/8/PPPPPPPP/RNBQKBNR b KQkq - 0 1") =
      some 15 := by
  constructor
  · intro et v fen
    refine ⟨fun hb => ?_, fun hw => ?_, rfl, ?_⟩
    · rw [hb]; simp [normalizeEvalToWhitePerspective]
    · rw [hw]; simp [normalizeEvalToWhitePerspective]
    · unfold getTurnFromFen; split <;> simp
  · decide

/-- Witness for C8 at a black-to-move position. -/
theorem normalize_eval_perspective_witness :
    normalizeEvalToWhitePerspective (some "cp") (some (-7))
      (getTurnFromFen "8/8/8/8/8/8/8/8 b - - 0 1") = some 7 := by
  have h := (normalize_eval_perspective.1 (some "cp") (-7) "8/8/8/8/8/8/8/8 b - - 0 1").1
    (by decide)
  simpa using h

/-- C10: `stop` writes no engine state (in particular `isAnalyzing` keeps
its value, so an engine analyzing when `stop` is called is still flagged
analyzing after it returns); among line events only a `bestmove` line
clears the flag, and the process-exit handler clears it. -/
theorem stop_frames_isAnalyzing (s : EngineState) (l : String)
    (hc : (engineHandleLine s l).1.isAnalyzing ≠ s.isAnalyzing) :
    (engineStop s).1 = s ∧ (engineOnExit s).isAnalyzing = false ∧
    jsStartsWith (jsTrim l) "bestmove" = true ∧ s.isAnalyzing = true ∧
    (engineHandleLine s l).1.isAnalyzing = false := by
  have hstop : (engineStop s).1 = s := by
    unfold engineStop; split_ifs <;> rfl
  refine ⟨hstop, rfl, ?_⟩
  by_cases h1 : jsTrim l = ""
  · simp [engineHandleLine, h1] at hc
  · by_cases h2 : jsTrim l = "readyok"
    · simp [engineHandleLine, h1, h2] at hc
    · cases hp : parseUciInfoLine (jsTrim l) with
      | some info => simp [engineHandleLine, h1, h2, hp] at hc
      | none =>
        by_cases h3 : jsStartsWith (jsTrim l) "bestmove"
        · have hfalse : (engineHandleLine s l).1.isAnalyzing = false := by
            simp [engineHandleLine, h1, h2, hp, h3]
          have htrue : s.isAnalyzing = true := by
            rw [hfalse] at hc
            revert hc
            cases s.isAnalyzing <;> simp
          exact ⟨h3, htrue, hfalse⟩
        · simp [engineHandleLine, h1, h2, hp, h3] at hc

/-- Witness for C10: an analyzing engine, a `bestmove` line. -/
theorem stop_frames_isAnalyzing_witness :
    (engineStop engAnalyzing).1 = engAnalyzing ∧
    (engineOnExit engAnalyzing).isAnalyzing = false ∧
    jsStartsWith (jsTrim "bestmove e2e4") "bestmove" = true ∧
    engAnalyzing.isAnalyzing = true ∧
    (engineHandleLine engAnalyzing "bestmove e2e4").1.isAnalyzing = false :=
  stop_frames_isAnalyzing engAnalyzing "bestmove e2e4" (by decide)

/-- C2 (amended): with smart updates disabled every non-null record whose
pv is non-empty or whose eval is non-null is forwarded; records with an
empty pv and a null eval are always dropped by the initial guard. -/
theorem onInfo_no_throttle_forwarding :
    (∀ (st : SessionState) (info : InfoRecord) (t : ℚ),
        st.config.smartUpdates = false →
        (info.pv ≠ [] ∨ info.eval ≠ none) →
        (onInfo st info t).2 ≠ none) ∧
    (∀ (st : SessionState) (info : InfoRecord) (t : ℚ),
        info.pv = [] → info.eval = none → (onInfo st info t).2 = none) := by
  constructor
  · intro st info t hs hi
    have hguard : ¬(info.pv = [] ∧ info.eval = none) := by
      rintro ⟨h1, h2⟩
      rcases hi with h | h <;> exact h (by assumption)
    unfold onInfo
    rw [if_neg hguard, if_pos hs]
    split <;> simp
  · intro st info t h1 h2
    unfold onInfo
    rw [if_pos ⟨h1, h2⟩]

/-- Witness for C2 (amended): a pv-carrying record is forwarded. -/
theorem onInfo_no_throttle_forwarding_witness :
    (onInfo stPlain infoSample 0).2 ≠ none :=
  onInfo_no_throttle_forwarding.1 stPlain infoSample 0 rfl (Or.inl (by decide))

theorem parseTokens_cons_cons (t v : String) (rest2 : List String) (r : InfoRecord) :
    parseTokens (t :: v :: rest2) r =
      if t = "depth" then parseTokens rest2 { r with depth := jsParseInt10 v }
      else if t = "seldepth" then parseTokens rest2 { r with selDepth := jsParseInt10 v }
      else if t = "multipv" then parseTokens rest2 { r with multiPv := jsOr1 (jsParseInt10 v) }
      else if t = "time" then parseTokens rest2 { r with timeMs := jsParseInt10 v }
      else if t = "nodes" then parseTokens rest2 { r with nodes := jsParseInt10 v }
      else if t = "nps" then parseTokens rest2 { r with nps := jsParseInt10 v }
      else if t = "hashfull" then parseTokens rest2 { r with hashFull := jsParseInt10 v }
      else if t = "score" then
        match rest2 with
        | [] => scoreUpd v none r
        | w :: rest3 => parseTokens rest3 (scoreUpd v (some w) r)
      else if t = "pv" then { r with pv := v :: rest2 }
      else parseTokens (v :: rest2) r := by
  cases rest2 with
  | nil => rfl
  | cons w rest3 => rw [parseTokens.eq_4]

theorem scoreUpd_multiPv (ty : String) (w : Option String) (r : InfoRecord) :
    (scoreUpd ty w r).multiPv = r.multiPv := by
  unfold scoreUpd; split_ifs <;> rfl

theorem applyLastKey_multiPv (t : String) (r : InfoRecord) (ht : t ≠ "multipv") :
    (applyLastKey t r).multiPv = r.multiPv := by
  unfold applyLastKey
  split_ifs <;> first | rfl | exact absurd (by assumption) ht

theorem parseTokens_multiPv_aux : ∀ (n : Nat) (ts : List String), ts.length ≤ n →
    ∀ (r : InfoRecord), "multipv" ∉ ts → (parseTokens ts r).multiPv = r.multiPv := by
  intro n
  induction n with
  | zero =>
    intro ts hlen r hmem
    cases ts with
    | nil => rfl
    | cons t rest => simp at hlen
  | succ n ih =>
    intro ts hlen r hmem
    cases ts with
    | nil => rfl
    | cons t rest =>
      cases rest with
      | nil =>
        exact applyLastKey_multiPv t r (fun hx => hmem (by simp [hx]))
      | cons v rest2 =>
        simp only [List.length_cons] at hlen
        have hlen2 : rest2.length ≤ n := by omega
        have hlenv : (v :: rest2).length ≤ n := by simp [List.length_cons]; omega
        have hm2 : "multipv" ∉ rest2 := fun hx => hmem (by simp [hx])
        have hmv : "multipv" ∉ v :: rest2 := by
          intro hx
          apply hmem
          simp only [List.mem_cons] at hx ⊢
          tauto
        rw [parseTokens_cons_cons]
        by_cases h1 : t = "depth"
        · rw [if_pos h1]; exact ih rest2 hlen2 _ hm2
        rw [if_neg h1]
        by_cases h2 : t = "seldepth"
        · rw [if_pos h2]; exact ih rest2 hlen2 _ hm2
        rw [if_neg h2]
        by_cases h3 : t = "multipv"
        · exact absurd (by simp [← h3]) hmem
        rw [if_neg h3]
        by_cases h4 : t = "time"
        · rw [if_pos h4]; exact ih rest2 hlen2 _ hm2
        rw [if_neg h4]
        by_cases h5 : t = "nodes"
        · rw [if_pos h5]; exact ih rest2 hlen2 _ hm2
        rw [if_neg h5]
        by_cases h6 : t = "nps"
        · rw [if_pos h6]; exact ih rest2 hlen2 _ hm2
        rw [if_neg h6]
        by_cases h7 : t = "hashfull"
        · rw [if_pos h7]; exact ih rest2 hlen2 _ hm2
        rw [if_neg h7]
        by_cases h8 : t = "score"
        · rw [if_pos h8]
          cases rest2 with
          | nil => exact scoreUpd_multiPv v none r
          | cons w rest3 =>
            have hlen3 : rest3.length ≤ n := by
              simp only [List.length_cons] at hlen2 ⊢
              omega
            have hm3 : "multipv" ∉ rest3 := fun hx => hm2 (by simp [hx])
            exact (ih rest3 hlen3 _ hm3).trans (scoreUpd_multiPv v (some w) r)
        rw [if_neg h8]
        by_cases h9 : t = "pv"
        · rw [if_pos h9]
        rw [if_neg h9]
        exact ih (v :: rest2) hlenv r hmv

theorem parseTokens_multiPv_skip (ts : List String) (r : InfoRecord)
    (h : "multipv" ∉ ts) : (parseTokens ts r).multiPv = r.multiPv :=
  parseTokens_multiPv_aux ts.length ts le_rfl r h

/-- C3 (amended): `multiPv` is 1 whenever the `multipv` keyword never
occurs among the tokens; each processed `multipv` keyword sets `multiPv`
to 1 when its value token is missing/malformed or parses to 0, and to the
parsed non-zero integer otherwise (negative values are kept as-is). -/
theorem multipv_default_behavior :
    (∀ (line : String) (r : InfoRecord), parseUciInfoLine line = some r →
        "multipv" ∉ jsSplitWs (jsTrim line) → r.multiPv = 1) ∧
    (∀ (v : String) (rest : List String) (r : InfoRecord),
        parseTokens ("multipv" :: v :: rest) r =
          parseTokens rest { r with multiPv := jsOr1 (jsParseInt10 v) }) ∧
    jsOr1 none = 1 ∧ (∀ n : Int, n ≠ 0 → jsOr1 (some n) = n) ∧ jsOr1 (some 0) = 1 := by
  refine ⟨?_, ?_, rfl, ?_, rfl⟩
  · intro line r h hmem
    simp only [parseUciInfoLine] at h
    split at h
    · exact Option.noConfusion h
    · split at h
      · injection h with h2
        subst h2
        exact parseTokens_multiPv_skip _ initInfo
          (fun hx => hmem (List.mem_of_mem_tail hx))
      · exact Option.noConfusion h
  · intro v rest r
    rw [parseTokens_cons_cons]
    simp
  · intro n hn
    simp [jsOr1, hn]

/-- Witness for C3 (amended): `info depth 5` has no `multipv` keyword and
its record carries `multiPv = 1`. -/
theorem multipv_default_behavior_witness : infoDepthOnly.multiPv = 1 :=
  multipv_default_behavior.1 "info depth 5" infoDepthOnly (by decide) (by decide)

theorem isPvChanged_false_iff : ∀ a b : List String, isPvChanged a b = false ↔ a = b := by
  intro a
  induction a with
  | nil =>
    intro b
    cases b with
    | nil => simp [isPvChanged]
    | cons y bs => simp [isPvChanged]
  | cons x as ih =>
    intro b
    cases b with
    | nil => simp [isPvChanged]
    | cons y bs =>
      have h := ih bs
      simp only [isPvChanged, List.zip_cons_cons, List.any_cons, List.length_cons,
        Bool.or_eq_false_iff, bne_eq_false_iff_eq, Nat.add_right_cancel_iff] at h ⊢
      constructor
      · rintro ⟨hlen, hx, hany⟩
        rw [hx, h.mp ⟨hlen, hany⟩]
      · rintro hh
        injection hh with h1 h2
        subst h1; subst h2
        refine ⟨rfl, rfl, (h.mpr rfl).2⟩

theorem isPvChanged_true_iff (a b : List String) : isPvChanged a b = true ↔ a ≠ b := by
  constructor
  · intro h hab
    have hf := (isPvChanged_false_iff a b).mpr hab
    rw [h] at hf
    exact Bool.noConfusion hf
  · intro h
    cases hx : isPvChanged a b
    · exact absurd ((isPvChanged_false_iff a b).mp hx) h
    · rfl

theorem smartShouldEmit_iff (st : SessionState) (info : InfoRecord) (t : ℚ) :
    smartShouldEmit st info t = true ↔
      (t - st.lastEmitAt ≥ smartInterval st info) ∧
      (st.lastSentByPv (jsMpv info) = none ∨
        (∃ p pd d, st.lastSentByPv (jsMpv info) = some p ∧ p.depth = some pd ∧
          info.depth = some d ∧ (pd : ℚ) + st.config.depthStep ≤ (d : ℚ)) ∨
        (∃ p pe e, st.lastSentByPv (jsMpv info) = some p ∧ p.eval = some pe ∧
          info.eval = some e ∧ st.config.evalDelta ≤ |(e : ℚ) - (pe : ℚ)|) ∨
        (∃ p, st.lastSentByPv (jsMpv info) = some p ∧ p.pv ≠ info.pv)) := by
  unfold smartShouldEmit smartTimeOk smartDepthOk smartEvalOk smartPvOk
  rcases hprev : st.lastSentByPv (jsMpv info) with _ | p
  · simp [ge_iff_le]
  · rcases hd : p.depth with _ | pd <;> rcases hd2 : info.depth with _ | d <;>
      rcases he : info.eval with _ | e <;> rcases he2 : p.eval with _ | pe <;>
      simp [hd, hd2, he, he2, isPvChanged_true_iff, ge_iff_le, abs_sub_comm] <;>
      tauto

/-- C5: in smart-update mode, a record that reaches the throttler is
forwarded iff the elapsed time since the session-wide last emit is at
least `max(minIntervalMs, dynamic interval)` AND (no prior emitted record
exists for its result line, or depth advanced by at least `depthStep`, or
the absolute eval difference is at least `evalDelta`, or the pv differs);
exactly on emit, `lastEmitAt` and the line's last-sent cache are updated,
and on a suppressed record the state is untouched. -/
theorem smart_update_decision (st : SessionState) (info : InfoRecord) (t : ℚ)
    (hs : st.config.smartUpdates = true)
    (hi : info.pv ≠ [] ∨ info.eval ≠ none) :
    ((onInfo st info t).2 ≠ none ↔
      (t - st.lastEmitAt ≥ smartInterval st info) ∧
      (st.lastSentByPv (jsMpv info) = none ∨
        (∃ p pd d, st.lastSentByPv (jsMpv info) = some p ∧ p.depth = some pd ∧
          info.depth = some d ∧ (pd : ℚ) + st.config.depthStep ≤ (d : ℚ)) ∨
        (∃ p pe e, st.lastSentByPv (jsMpv info) = some p ∧ p.eval = some pe ∧
          info.eval = some e ∧ st.config.evalDelta ≤ |(e : ℚ) - (pe : ℚ)|) ∨
        (∃ p, st.lastSentByPv (jsMpv info) = some p ∧ p.pv ≠ info.pv))) ∧
    ((onInfo st info t).2 ≠ none →
      (onInfo st info t).1.lastEmitAt = t ∧
      (onInfo st info t).1.lastSentByPv (jsMpv info) = some info) ∧
    ((onInfo st info t).2 = none → (onInfo st info t).1 = st) := by
  have hguard : ¬(info.pv = [] ∧ info.eval = none) := by
    rintro ⟨h1, h2⟩
    rcases hi with h | h <;> exact h (by assumption)
  have hio : onInfo st info t = smartStep st info t := by
    unfold onInfo
    rw [if_neg hguard, if_neg (by simp [hs])]
  rw [hio]
  unfold smartStep
  by_cases hse : smartShouldEmit st info t
  · rw [if_pos hse]
    have hrhs := (smartShouldEmit_iff st info t).mp hse
    split
    · refine ⟨?_, ?_, ?_⟩
      · simp only [ne_eq, Option.some_ne_none, not_false_iff, true_iff]
        exact hrhs
      · intro _
        exact ⟨rfl, by simp [objSet]⟩
      · intro hc
        exact Option.noConfusion hc
    · refine ⟨?_, ?_, ?_⟩
      · simp only [ne_eq, Option.some_ne_none, not_false_iff, true_iff]
        exact hrhs
      · intro _
        exact ⟨rfl, by simp [objSet]⟩
      · intro hc
        exact Option.noConfusion hc
  · rw [if_neg hse]
    refine ⟨?_, ?_, ?_⟩
    · simp only [ne_eq, not_true, false_iff]
      intro hcon
      exact hse ((smartShouldEmit_iff st info t).mpr hcon)
    · intro hc; exact absurd rfl hc
    · intro _; rfl

/-- Witness for C5: first record of a session, arriving late enough. -/
theorem smart_update_decision_witness :
    (onInfo stSmart infoSample 1000).2 ≠ none ∧
    (onInfo stSmart infoSample 1000).1.lastEmitAt = 1000 ∧
    (onInfo stSmart infoSample 1000).1.lastSentByPv (jsMpv infoSample) = some infoSample := by
  have h := smart_update_decision stSmart infoSample 1000 rfl (Or.inl (by decide))
  have he : (onInfo stSmart infoSample 1000).2 ≠ none := by
    apply h.1.mpr
    refine ⟨?_, Or.inl rfl⟩
    show (1000 : ℚ) - stSmart.lastEmitAt ≥ smartInterval stSmart infoSample
    have : smartInterval stSmart infoSample = 350 := by
      unfold smartInterval getDynamicIntervalMs
      norm_num [stSmart, infoSample]
    rw [this]
    norm_num [stSmart]
  exact ⟨he, (h.2.1 he).1, (h.2.1 he).2⟩

theorem onInfo_config_eq (st : SessionState) (i : InfoRecord) (t : ℚ) :
    (onInfo st i t).1.config = st.config := by
  unfold onInfo smartStep
  repeat' split
  all_goals rfl

theorem onInfo_none_frame (st : SessionState) (i : InfoRecord) (t : ℚ)
    (h : (onInfo st i t).2 = none) : (onInfo st i t).1 = st := by
  by_cases hg : i.pv = [] ∧ i.eval = none
  · simp [onInfo, hg]
  · by_cases hs : st.config.smartUpdates = false
    · exfalso
      revert h
      simp only [onInfo, hg, hs, if_neg, if_pos, if_false, if_true]
      split <;> simp_all
    · by_cases hse : smartShouldEmit st i t
      · by_cases hgp : st.config.groupPv = false <;>
          (exfalso; revert h; simp [onInfo, hg, hs, smartStep, hse, hgp])
      · simp [onInfo, hg, hs, smartStep, hse]

theorem onInfo_grouped_emit (st : SessionState) (i : InfoRecord) (t : ℚ)
    (hgp : st.config.groupPv = true) (h : (onInfo st i t).2.isSome) :
    (onInfo st i t).1.groupedLines = objSet st.groupedLines (jsMpv i) i ∧
    (onInfo st i t).1.groupedFen = st.groupedFen ∧
    (onInfo st i t).2 =
      some (Emission.updateGrouped st.groupedFen (objSet st.groupedLines (jsMpv i) i)) := by
  by_cases hg : i.pv = [] ∧ i.eval = none
  · exfalso; revert h; simp [onInfo, hg]
  · by_cases hs : st.config.smartUpdates = false
    · simp [onInfo, hg, hs, hgp]
    · by_cases hse : smartShouldEmit st i t
      · simp [onInfo, hg, hs, smartStep, hse, hgp]
      · exfalso; revert h; simp [onInfo, hg, hs, smartStep, hse]

theorem runInfos_grouped_lines (inputs : List (InfoRecord × ℚ)) :
    ∀ (st : SessionState) (k : Int), st.config.groupPv = true →
      (runInfos st inputs).1.groupedLines k =
        Option.or (lastWith k (acceptedOf st inputs)) (st.groupedLines k) := by
  induction inputs with
  | nil =>
    intro st k hg
    simp [runInfos, acceptedOf, lastWith, Option.or]
  | cons hd tl ih =>
    intro st k hg
    obtain ⟨i, t⟩ := hd
    have hcfg : (onInfo st i t).1.config = st.config := onInfo_config_eq st i t
    have hg2 : (onInfo st i t).1.config.groupPv = true := by rw [hcfg]; exact hg
    by_cases hsome : (onInfo st i t).2.isSome
    · obtain ⟨hgl, hfen, hev⟩ := onInfo_grouped_emit st i t hg hsome
      have hrun : (runInfos st ((i, t) :: tl)).1 = (runInfos (onInfo st i t).1 tl).1 := by
        simp [runInfos]
      have hacc : acceptedOf st ((i, t) :: tl) = i :: acceptedOf (onInfo st i t).1 tl := by
        simp [acceptedOf, hsome]
      rw [hrun, hacc, ih (onInfo st i t).1 k hg2, hgl]
      show Option.or (lastWith k (acceptedOf (onInfo st i t).1 tl)) (objSet st.groupedLines (jsMpv i) i k) =
        Option.or (lastWith k (i :: acceptedOf (onInfo st i t).1 tl)) (st.groupedLines k)
      rw [lastWith]
      by_cases hk : jsMpv i = k
      · rw [if_pos hk]
        unfold objSet
        rw [if_pos hk.symm]
        cases lastWith k (acceptedOf (onInfo st i t).1 tl) <;> simp [Option.or]
      · rw [if_neg hk]
        unfold objSet
        rw [if_neg (fun hx => hk hx.symm)]
        cases lastWith k (acceptedOf (onInfo st i t).1 tl) <;> simp [Option.or]
    · have hnone : (onInfo st i t).2 = none := Option.not_isSome_iff_eq_none.mp hsome
      have hfr : (onInfo st i t).1 = st := onInfo_none_frame st i t hnone
      have hrun : (runInfos st ((i, t) :: tl)).1 = (runInfos (onInfo st i t).1 tl).1 := by
        simp [runInfos]
      have hacc : acceptedOf st ((i, t) :: tl) = acceptedOf (onInfo st i t).1 tl := by
        simp [acceptedOf, hsome]
      rw [hrun, hacc, hfr] at *
      rw [ih st k hg]

/-- C9: with grouping on, every emission of `onInfo` is the full snapshot
(the post-state grouped mapping), and after a search-start reset the
grouped mapping sends every result-line index to the most recently
accepted record with that index (and to nothing when no record of the
current search has that index — no carry-over). -/
theorem grouped_snapshot_correct :
    (∀ (st : SessionState) (i : InfoRecord) (t : ℚ),
        st.config.groupPv = true → (onInfo st i t).2 ≠ none →
        (onInfo st i t).2 =
          some (Emission.updateGrouped (onInfo st i t).1.groupedFen
            ((onInfo st i t).1.groupedLines))) ∧
    (∀ (st : SessionState) (fen : Option String) (inputs : List (InfoRecord × ℚ)) (k : Int),
        st.config.groupPv = true →
        (runInfos (resetGroupedPv st fen) inputs).1.groupedLines k =
          lastWith k (acceptedOf (resetGroupedPv st fen) inputs)) := by
  constructor
  · intro st i t hg hne
    have hsome : (onInfo st i t).2.isSome := Option.ne_none_iff_isSome.mp hne
    obtain ⟨h1, h2, h3⟩ := onInfo_grouped_emit st i t hg hsome
    rw [h3, h1, h2]
  · intro st fen inputs k hg
    have hgr : (resetGroupedPv st fen).config.groupPv = true := hg
    have h := runInfos_grouped_lines inputs (resetGroupedPv st fen) k hgr
    rw [h]
    show Option.or (lastWith k (acceptedOf (resetGroupedPv st fen) inputs)) none = _
    cases lastWith k (acceptedOf (resetGroupedPv st fen) inputs) <;> simp [Option.or]

/-- Witness for C9: two accepted records on lines 1 and 2. -/
theorem grouped_snapshot_correct_witness :
    (runInfos (resetGroupedPv stGrouped (some "startpos"))
        [(infoSample, 0), (infoSample2, 0)]).1.groupedLines 2 =
      lastWith 2 (acceptedOf (resetGroupedPv stGrouped (some "startpos"))
        [(infoSample, 0), (infoSample2, 0)]) :=
  grouped_snapshot_correct.2 stGrouped (some "startpos")
    [(infoSample, 0), (infoSample2, 0)] 2 rfl

theorem govReach_strong (maxE maxA : Int) (hE : 0 ≤ maxE) (hA : 0 ≤ maxA) :
    ∀ g : Gov, GovReach maxE maxA g →
      g.ce = g.live ∧ 0 ≤ g.ce ∧ g.ce ≤ maxE ∧ 0 ≤ g.ac ∧ g.ac ≤ maxA := by
  intro g h
  induction h with
  | init => exact ⟨rfl, le_refl 0, hE, le_refl 0, hA⟩
  | @step g g' e hr hstep ih =>
    obtain ⟨hcl, hce0, hceM, hac0, hacM⟩ := ih
    cases e with
    | connect =>
      simp only [govStep, Option.some.injEq] at hstep
      subst hstep
      split
      · exact ⟨hcl, hce0, hceM, hac0, hacM⟩
      · next hlt =>
        push_neg at hlt
        refine ⟨by simp [hcl], ?_, ?_, hac0, hacM⟩ <;> simp <;> omega
    | startReq mode ok =>
      simp only [govStep, Option.some.injEq] at hstep
      subst hstep
      refine ⟨hcl, hce0, hceM, ?_, ?_⟩ <;>
        (simp only [startHandlerCount]; split_ifs <;> (try simp) <;> omega)
    | bestmove =>
      simp only [govStep, Option.some.injEq] at hstep
      subst hstep
      refine ⟨hcl, hce0, hceM, ?_, ?_⟩ <;> (split_ifs <;> (try simp) <;> omega)
    | engineError b =>
      simp only [govStep, Option.some.injEq] at hstep
      subst hstep
      refine ⟨hcl, hce0, hceM, ?_, ?_⟩ <;> (split_ifs <;> (try simp) <;> omega)
    | stopReq =>
      simp only [govStep, Option.some.injEq] at hstep
      subst hstep
      refine ⟨hcl, hce0, hceM, ?_, ?_⟩ <;> (split_ifs <;> (try simp) <;> omega)
    | disconnect b =>
      simp only [govStep] at hstep
      split at hstep
      · next hlive =>
        simp only [Option.some.injEq] at hstep
        subst hstep
        refine ⟨by simp [hcl], ?_, ?_, ?_, ?_⟩ <;>
          (try simp) <;> (try split_ifs) <;> (try simp) <;> omega
      · exact Option.noConfusion hstep

/-- C4: from server start, under arbitrary interleavings of connection,
analysis-start, analysis-stop, bestmove, engine-error and disconnect
handler segments, `connectedEngines` and `activeAnalysisCount` stay
within `[0, MAX_ENGINES]` and `[0, MAX_ACTIVE_ANALYSIS]` respectively. -/
theorem counters_bounded (maxE maxA : Int) (hE : 0 ≤ maxE) (hA : 0 ≤ maxA)
    (g : Gov) (h : GovReach maxE maxA g) :
    0 ≤ g.ce ∧ g.ce ≤ maxE ∧ 0 ≤ g.ac ∧ g.ac ≤ maxA := by
  obtain ⟨_, h1, h2, h3, h4⟩ := govReach_strong maxE maxA hE hA g h
  exact ⟨h1, h2, h3, h4⟩

/-- Witness for C4 at the state reached by one accepted connection and
one successful analysis start, with the default limits 3 and 2. -/
theorem counters_bounded_witness :
    0 ≤ (Gov.mk 1 1 1).ce ∧ (Gov.mk 1 1 1).ce ≤ 3 ∧
    0 ≤ (Gov.mk 1 1 1).ac ∧ (Gov.mk 1 1 1).ac ≤ 2 := by
  have h1 : GovReach 3 2 (Gov.mk 1 0 1) :=
    @GovReach.step 3 2 (Gov.mk 0 0 0) (Gov.mk 1 0 1) GovEvent.connect
      GovReach.init (by decide)
  have h2 : GovReach 3 2 (Gov.mk 1 1 1) :=
    @GovReach.step 3 2 (Gov.mk 1 0 1) (Gov.mk 1 1 1) (GovEvent.startReq "depth" true)
      h1 (by decide)
  exact counters_bounded 3 2 (by norm_num) (by norm_num) (Gov.mk 1 1 1) h2
